import Mathlib

/-
Verification of openage's PNG creation core
(src/openage/convert/service/export/png/png_create.pyx).

The libpng codec is external; following the spec it is treated as a black
box that deterministically maps a raster plus a parameter tuple to an
encoded byte stream.  The embedding therefore universally quantifies over
an abstract codec function, and every embedded routine additionally
returns the trace of codec invocations it performs, so that claims about
"how many encodes happen" and "no codec call before rejection" are
statable.
-/

namespace PngCreate

/-- Compression optimization methods (class CompressionMethod in
png_create.pyx). -/
inductive CompressionMethod where
  | COMPR_NONE
  | COMPR_DEFAULT
  | COMPR_GREEDY
  | COMPR_AGGRESSIVE
  deriving DecidableEq, Repr

/-- Compression parameter tuple (cdef struct greedy_replay_param):
compression level, memory level, strategy and filter flags, each a
uint8_t in the source (all values handled here are < 256). -/
structure greedy_replay_param where
  compr_lvl : Nat
  mem_lvl : Nat
  strat : Nat
  filters : Nat
  deriving DecidableEq, Repr

/-- cdef int GREEDY_COMPR_LVL_MIN = 9 -/
def GREEDY_COMPR_LVL_MIN : Nat := 9

/-- cdef int GREEDY_COMPR_LVL_MAX = 9 -/
def GREEDY_COMPR_LVL_MAX : Nat := 9

/-- cdef int GREEDY_COMPR_MEM_LVL_MIN = 8 -/
def GREEDY_COMPR_MEM_LVL_MIN : Nat := 8

/-- cdef int GREEDY_COMPR_MEM_LVL_MAX = 8 -/
def GREEDY_COMPR_MEM_LVL_MAX : Nat := 8

/-- cdef int GREEDY_COMPR_STRAT_MIN = 0 -/
def GREEDY_COMPR_STRAT_MIN : Nat := 0

/-- cdef int GREEDY_COMPR_STRAT_MAX = 3 -/
def GREEDY_COMPR_STRAT_MAX : Nat := 3

/-- libpng PNG_FILTER_NONE = 0x08 -/
def PNG_FILTER_NONE : Nat := 0x08

/-- libpng PNG_ALL_FILTERS = 0xF8 -/
def PNG_ALL_FILTERS : Nat := 0xF8

/-- cdef int GREEDY_FILTER_0 = libpng.PNG_FILTER_NONE -/
def GREEDY_FILTER_0 : Nat := PNG_FILTER_NONE

/-- cdef int GREEDY_FILTER_5 = libpng.PNG_ALL_FILTERS -/
def GREEDY_FILTER_5 : Nat := PNG_ALL_FILTERS

/-- Python range(a, b) for a <= b: the list [a, a+1, ..., b-1]. -/
def pyrange (a b : Nat) : List Nat := (List.range (b - a)).map (fun i => i + a)

/-- Abstract libpng codec: imagedata, width, height and a parameter tuple
determine the encoded PNG byte stream.  One application models one
write_to_file call (png_set_compression_level / mem_level / strategy /
filter followed by the row writes) into a fresh memory stream. -/
abbrev Codec := List Nat → Nat → Nat → greedy_replay_param → List Nat

/-- One codec invocation, recorded in the trace of an embedded routine:
either a parameterized write_to_file call with the given tuple, or one of
the two png_image_write_to_memory calls of the default path (the sizing
call and the buffer-writing call). -/
inductive CodecCall where
  | trial (p : greedy_replay_param)
  | defaultSize
  | defaultWrite
  deriving DecidableEq, Repr

/-- The Python-level MemoryError raised on codec/buffer failures. -/
inductive PngError where
  | memoryError
  deriving DecidableEq, Repr

/-- Oracle for the two png_image_write_to_memory calls of
optimize_default: whether the sizing call succeeds, whether the write
call succeeds, and the bytes found in the output buffer (of length
write_image_size) that are copied into the returned bytearray. -/
structure DefaultCodec where
  sizeOk : Bool
  writeOk : Bool
  out : List Nat

/-- Oracle for the memory-stream read-back in optimize_greedy: freadCount n
is the number of bytes fread copies when n bytes are requested from the
stream.  For a memstream holding exactly n bytes this is n; keeping it
abstract lets the copy-failure branch of the source be exercised. -/
structure MemStreamEnv where
  freadCount : Nat → Nat

/-- The sentinel tuple with every field 0xFF, assigned by save when no
compression settings are supplied ("Assign invalid values. This will
trigger the optimization loop."). -/
def sentinelReplay : greedy_replay_param :=
  { compr_lvl := 0xFF, mem_lvl := 0xFF, strat := 0xFF, filters := 0xFF }

/-- The candidate tuples visited by the nested loops of
optimize_greedy_iterate, in iteration order: filters runs over
range(GREEDY_FILTER_0, GREEDY_FILTER_5 + 1) with every value other than
the two extremes skipped by the continue, then strategy, compression
level and memory level run over their configured ranges. -/
def greedyCandidates : List greedy_replay_param :=
  ((pyrange GREEDY_FILTER_0 (GREEDY_FILTER_5 + 1)).filter
      (fun filters => filters == GREEDY_FILTER_0 || filters == GREEDY_FILTER_5)).flatMap
    (fun filters =>
      (pyrange GREEDY_COMPR_STRAT_MIN (GREEDY_COMPR_STRAT_MAX + 1)).flatMap
        (fun strategy =>
          (pyrange GREEDY_COMPR_LVL_MIN (GREEDY_COMPR_LVL_MAX + 1)).flatMap
            (fun compr_lvl =>
              (pyrange GREEDY_COMPR_MEM_LVL_MIN (GREEDY_COMPR_MEM_LVL_MAX + 1)).map
                (fun mem_lvl =>
                  { compr_lvl := compr_lvl, mem_lvl := mem_lvl,
                    strat := strategy, filters := filters }))))

/-- Conversion of a size (ftell result) to the cdef int current_filesize:
wraps into the 32-bit signed range. -/
def c_int_wrap (n : Nat) : Int := ((n : Int) + 2 ^ 31) % 2 ^ 32 - 2 ^ 31

/-- Size reported by ftell for the trial encode of one candidate tuple:
the length of the byte stream the codec writes for it. -/
def trialSize (codec : Codec) (img : List Nat) (width height : Nat)
    (p : greedy_replay_param) : Nat :=
  (codec img width height p).length

/-- One iteration of the trial loop of optimize_greedy_iterate: encode
with the candidate tuple, take the resulting file size, and replace the
(best_filesize, best parameters) state only when the new size is strictly
smaller. -/
def iterStep (codec : Codec) (img : List Nat) (width height : Nat)
    (st : Int × greedy_replay_param) (p : greedy_replay_param) :
    Int × greedy_replay_param :=
  let current_filesize := c_int_wrap (trialSize codec img width height p)
  if current_filesize < st.1 then (current_filesize, p) else st

/-- The trial loop of optimize_greedy_iterate over an arbitrary candidate
list: fold iterStep starting from best_filesize = 0x7fffffff and the
0xFF-filled best parameters, keeping the parameter component of the final
state. -/
def bestOf (codec : Codec) (img : List Nat) (width height : Nat)
    (l : List greedy_replay_param) : greedy_replay_param :=
  (l.foldl (iterStep codec img width height)
      ((0x7fffffff : Int), sentinelReplay)).2

/-- Winning tuple of the trial loop of optimize_greedy_iterate: the trial
loop over the greedyCandidates enumeration. -/
def greedyBest (codec : Codec) (img : List Nat) (width height : Nat) :
    greedy_replay_param :=
  bestOf codec img width height greedyCandidates

/-- cdef greedy_replay_param optimize_greedy_iterate: runs the trial loop
and returns the winning tuple together with the trace of the trial
encodes performed (one write_to_file per visited candidate). -/
def optimize_greedy_iterate (codec : Codec) (img : List Nat)
    (width height : Nat) : greedy_replay_param × List CodecCall :=
  (greedyBest codec img width height, greedyCandidates.map CodecCall.trial)

/-- First phase of optimize_greedy: when the replay tuple's compr_lvl is
the 0xFF sentinel, the full search runs and its winner (with the trial
trace) is used; otherwise the caller's tuple is used unchanged with no
search. -/
def replayOrSearch (codec : Codec) (img : List Nat) (width height : Nat)
    (replay0 : greedy_replay_param) : greedy_replay_param × List CodecCall :=
  if replay0.compr_lvl = 0xFF then optimize_greedy_iterate codec img width height
  else (replay0, [])

/-- cdef optimize_greedy: after the optional search (replayOrSearch),
perform one write_to_file with the resulting tuple into a memstream, read
the stream back into a bytearray (raising MemoryError when fread copies a
number of bytes different from the filesize ftell reported) and return
the bytes with the tuple used; the trace is the search's trials followed
by this final encode. -/
def optimize_greedy (codec : Codec) (env : MemStreamEnv) (img : List Nat)
    (width height : Nat) (replay0 : greedy_replay_param) :
    Except PngError (List Nat × greedy_replay_param) × List CodecCall :=
  (if env.freadCount
        (codec img width height
          (replayOrSearch codec img width height replay0).1).length
      = (codec img width height
          (replayOrSearch codec img width height replay0).1).length
   then
     Except.ok
       (codec img width height (replayOrSearch codec img width height replay0).1,
        (replayOrSearch codec img width height replay0).1)
   else Except.error PngError.memoryError,
   (replayOrSearch codec img width height replay0).2
     ++ [CodecCall.trial (replayOrSearch codec img width height replay0).1])

/-- cdef bytearray optimize_default: a sizing call to
png_image_write_to_memory (MemoryError when it fails), then the actual
write call (MemoryError when it fails), then the buffer is copied into
the returned bytearray. -/
def optimize_default (dc : DefaultCodec) :
    Except PngError (List Nat) × List CodecCall :=
  if dc.sizeOk = false then
    (Except.error PngError.memoryError, [CodecCall.defaultSize])
  else if dc.writeOk = false then
    (Except.error PngError.memoryError,
     [CodecCall.defaultSize, CodecCall.defaultWrite])
  else
    (Except.ok dc.out, [CodecCall.defaultSize, CodecCall.defaultWrite])

/-- The compr_settings argument of save: Python None, the empty tuple
(both falsy) or a 4-tuple of integers. -/
inductive ComprSettings where
  | pynone
  | emptyTuple
  | tuple4 (a b c d : Nat)
  deriving DecidableEq, Repr

/-- The replay struct save fills from compr_settings: a truthy 4-tuple
fills the four fields (each narrowed to uint8_t, modelled as mod 256; all
claims concern values < 256) and a falsy value (None or the empty tuple)
fills every field with the 0xFF sentinel. -/
def saveReplay (compr_settings : ComprSettings) : greedy_replay_param :=
  match compr_settings with
  | ComprSettings.tuple4 a b c d =>
      { compr_lvl := a % 256, mem_lvl := b % 256,
        strat := c % 256, filters := d % 256 }
  | _ => sentinelReplay

/-- Outcome part of the greedy branch of save: an error from
optimize_greedy propagates; a success is repackaged as the bytes together
with the used settings as a 4-tuple. -/
def saveGreedyOutcome
    (r : Except PngError (List Nat × greedy_replay_param)) :
    Except PngError (List Nat × Option (Nat × Nat × Nat × Nat)) :=
  match r with
  | Except.error e => Except.error e
  | Except.ok (outdata, used) =>
      Except.ok (outdata,
        some (used.compr_lvl, used.mem_lvl, used.strat, used.filters))

/-- Outcome part of the non-greedy branch of save: an error from
optimize_default propagates; a success is paired with None. -/
def saveDefaultOutcome (r : Except PngError (List Nat)) :
    Except PngError (List Nat × Option (Nat × Nat × Nat × Nat)) :=
  match r with
  | Except.error e => Except.error e
  | Except.ok outdata => Except.ok (outdata, none)

/-- def save(imagedata, compr_method, compr_settings): for COMPR_GREEDY
the replay struct is filled from compr_settings and optimize_greedy runs,
its used settings returned as a 4-tuple; any other method runs
optimize_default and reports None as the settings.  The width/height
arguments stand for imagedata.shape[1] and imagedata.shape[0]; the source
performs no validation of them or of the buffer. -/
def save (codec : Codec) (dc : DefaultCodec) (env : MemStreamEnv)
    (img : List Nat) (width height : Nat)
    (compr_method : CompressionMethod) (compr_settings : ComprSettings) :
    Except PngError (List Nat × Option (Nat × Nat × Nat × Nat)) × List CodecCall :=
  if compr_method = CompressionMethod.COMPR_GREEDY then
    (saveGreedyOutcome
       (optimize_greedy codec env img width height
          (saveReplay compr_settings)).1,
     (optimize_greedy codec env img width height
        (saveReplay compr_settings)).2)
  else
    (saveDefaultOutcome (optimize_default dc).1, (optimize_default dc).2)

/-- Spec-side definition (follows the spec's words, for comparison with
the source loop): scanning candidates left to right, keep the first
candidate, and replace the kept candidate only when a later one has a
strictly smaller value of f — so the result is the first candidate whose
value equals the minimum over the list. -/
def firstMinBy (f : greedy_replay_param → Nat) (l : List greedy_replay_param) :
    Option greedy_replay_param :=
  l.foldl
    (fun acc p =>
      match acc with
      | Option.none => some p
      | some q => if f p < f q then some p else some q)
    Option.none

/-- The left fold computing the earliest strict minimizer of f over l
starting from the candidate q; the state of firstMinBy after its first
step. -/
def minFold (f : greedy_replay_param → Nat) (q : greedy_replay_param)
    (l : List greedy_replay_param) : greedy_replay_param :=
  l.foldl (fun y p => if f p < f y then p else y) q

/-- Modelled from the spec: codec-valid parameter ranges (compression
level 1-9, memory level 1-9, strategy 0-3, filters among the allowed flag
values listed in the write_to_file doc comment).  The source performs no
such validation; this predicate only delimits the domain of the amended
error-handling claims. -/
def validParams (lvl mem strat filters : Nat) : Prop :=
  1 ≤ lvl ∧ lvl ≤ 9 ∧ 1 ≤ mem ∧ mem ≤ 9 ∧ strat ≤ 3 ∧
    filters ∈ [0x08, 0x10, 0x20, 0x40, 0x80, 0xF8]

instance (lvl mem strat filters : Nat) :
    Decidable (validParams lvl mem strat filters) := by
  unfold validParams
  infer_instance

/-- A concrete codec for closed witnesses and counterexamples: the output
length depends on the strategy field. -/
def cdemo : Codec := fun _ _ _ p => List.replicate (p.strat % 8 + 1) 7

/-- A concrete default-path oracle whose calls succeed. -/
def dcdemo : DefaultCodec :=
  { sizeOk := true, writeOk := true, out := [137, 80, 78, 71] }

/-- The faithful memory-stream environment: fread copies exactly the
number of bytes requested. -/
def envdemo : MemStreamEnv := { freadCount := fun n => n }

/-- A failing memory-stream environment: fread always copies a different
number of bytes than requested. -/
def envbad : MemStreamEnv := { freadCount := fun n => n + 1 }

/-- The candidate enumeration evaluates to the concrete eight tuples, in
loop order. -/
theorem greedyCandidates_eq :
    greedyCandidates =
      [⟨9, 8, 0, 8⟩, ⟨9, 8, 1, 8⟩, ⟨9, 8, 2, 8⟩, ⟨9, 8, 3, 8⟩,
       ⟨9, 8, 0, 0xF8⟩, ⟨9, 8, 1, 0xF8⟩, ⟨9, 8, 2, 0xF8⟩, ⟨9, 8, 3, 0xF8⟩] := by
  decide

/-- Sizes below 2^31 are unchanged by the int conversion. -/
theorem c_int_wrap_of_lt (n : Nat) (h : n < 2 ^ 31) : c_int_wrap n = (n : Int) := by
  unfold c_int_wrap
  omega

/-- Starting from a state holding a candidate together with its own size,
the trial loop computes exactly the earliest strict minimizer, provided
every size fits below the 0x7fffffff initial best. -/
theorem foldl_iterStep_minFold (codec : Codec) (img : List Nat)
    (width height : Nat) (l : List greedy_replay_param)
    (q : greedy_replay_param)
    (hq : trialSize codec img width height q < 0x7fffffff)
    (hl : ∀ p ∈ l, trialSize codec img width height p < 0x7fffffff) :
    l.foldl (iterStep codec img width height)
        ((trialSize codec img width height q : Int), q)
      = ((trialSize codec img width height
            (minFold (trialSize codec img width height) q l) : Int),
         minFold (trialSize codec img width height) q l) := by
  induction l generalizing q with
  | nil => simp [minFold]
  | cons x xs ih =>
    have hx : trialSize codec img width height x < 0x7fffffff :=
      hl x (List.mem_cons_self x xs)
    have hxs : ∀ p ∈ xs, trialSize codec img width height p < 0x7fffffff :=
      fun p hp => hl p (List.mem_cons_of_mem x hp)
    have hwrap : c_int_wrap (trialSize codec img width height x)
        = (trialSize codec img width height x : Int) :=
      c_int_wrap_of_lt _ (by omega)
    simp only [List.foldl, minFold, iterStep, hwrap]
    by_cases hlt : trialSize codec img width height x < trialSize codec img width height q
    · rw [if_pos (by exact_mod_cast hlt), if_pos hlt]
      exact ih x hx hxs
    · rw [if_neg (by exact_mod_cast hlt), if_neg hlt]
      exact ih q hq hxs

/-- Once firstMinBy's accumulator holds a candidate, the rest of its fold
is the strict-minimizer fold. -/
theorem foldl_firstMin_some (f : greedy_replay_param → Nat)
    (l : List greedy_replay_param) (q : greedy_replay_param) :
    l.foldl
        (fun acc p =>
          match acc with
          | Option.none => some p
          | some y => if f p < f y then some p else some y)
        (some q)
      = some (minFold f q l) := by
  induction l generalizing q with
  | nil => simp [minFold]
  | cons x xs ih =>
    simp only [List.foldl, minFold]
    by_cases hlt : f x < f q
    · rw [if_pos hlt, if_pos hlt]
      exact ih x
    · rw [if_neg hlt, if_neg hlt]
      exact ih q

/-- The strict-minimizer fold returns an element whose value is at most
the start candidate's and at most every listed candidate's. -/
theorem minFold_le (f : greedy_replay_param → Nat)
    (l : List greedy_replay_param) (q : greedy_replay_param) :
    f (minFold f q l) ≤ f q ∧ ∀ p ∈ l, f (minFold f q l) ≤ f p := by
  induction l generalizing q with
  | nil => simp [minFold]
  | cons x xs ih =>
    simp only [minFold, List.foldl]
    by_cases hlt : f x < f q
    · rw [if_pos hlt]
      refine ⟨le_trans (ih x).1 (le_of_lt hlt), ?_⟩
      intro p hp
      rcases List.mem_cons.mp hp with hpx | hpxs
      · rw [hpx]; exact (ih x).1
      · exact (ih x).2 p hpxs
    · rw [if_neg hlt]
      refine ⟨(ih q).1, ?_⟩
      intro p hp
      rcases List.mem_cons.mp hp with hpx | hpxs
      · rw [hpx]; exact le_trans (ih q).1 (Nat.le_of_not_lt hlt)
      · exact (ih q).2 p hpxs

/-- From the 0x7fffffff initial best, any candidate whose trial size is
below that bound replaces the initial state in one step. -/
theorem iterStep_initial (codec : Codec) (img : List Nat)
    (width height : Nat) (p : greedy_replay_param)
    (hp : trialSize codec img width height p < 0x7fffffff) :
    iterStep codec img width height ((0x7fffffff : Int), sentinelReplay) p
      = ((trialSize codec img width height p : Int), p) := by
  unfold iterStep
  have hproj : ((0x7fffffff : Int), sentinelReplay).1 = (0x7fffffff : Int) := rfl
  rw [c_int_wrap_of_lt _ (by omega), hproj,
    if_pos (show (trialSize codec img width height p : Int)
        < (0x7fffffff : Int) by exact_mod_cast hp)]

/-- On a nonempty candidate list with all sizes below the initial best,
the trial loop computes the earliest strict minimizer. -/
theorem bestOf_cons (codec : Codec) (img : List Nat) (width height : Nat)
    (x : greedy_replay_param) (xs : List greedy_replay_param)
    (hx : trialSize codec img width height x < 0x7fffffff)
    (hxs : ∀ p ∈ xs, trialSize codec img width height p < 0x7fffffff) :
    bestOf codec img width height (x :: xs)
      = minFold (trialSize codec img width height) x xs := by
  unfold bestOf
  rw [List.foldl_cons, iterStep_initial codec img width height x hx,
    foldl_iterStep_minFold codec img width height xs x hx hxs]

/-- C1: a full greedy search (save with method GREEDY and no
params_override) performs exactly 8 trial encodes, enumerating candidates
in the fixed nested order: filter outermost over exactly filter-none
(0x08) and all-filters (0xF8), then strategy over 0..3, with compression
level fixed at 9 and memory level fixed at 8.  The second conjunct
identifies the only further codec call of the save as the final output
encode with the winning tuple. -/
theorem c1_greedy_trial_enumeration (codec : Codec) (dc : DefaultCodec)
    (env : MemStreamEnv) (img : List Nat) (width height : Nat) :
    (optimize_greedy_iterate codec img width height).2
      = [CodecCall.trial ⟨9, 8, 0, 8⟩, CodecCall.trial ⟨9, 8, 1, 8⟩,
         CodecCall.trial ⟨9, 8, 2, 8⟩, CodecCall.trial ⟨9, 8, 3, 8⟩,
         CodecCall.trial ⟨9, 8, 0, 0xF8⟩, CodecCall.trial ⟨9, 8, 1, 0xF8⟩,
         CodecCall.trial ⟨9, 8, 2, 0xF8⟩, CodecCall.trial ⟨9, 8, 3, 0xF8⟩]
    ∧ (save codec dc env img width height CompressionMethod.COMPR_GREEDY
         ComprSettings.pynone).2
      = (optimize_greedy_iterate codec img width height).2
          ++ [CodecCall.trial (optimize_greedy_iterate codec img width height).1] := by
  constructor
  · unfold optimize_greedy_iterate
    rw [greedyCandidates_eq]
    rfl
  · rfl

/-- C2: the greedy search returns the first candidate in enumeration
order whose encoded size equals the minimum over all evaluated
candidates; a candidate replaces the current best only when strictly
smaller, and from the initial best size 0x7fffffff (the maximum
representable int) the first trial replaces the initial state, all under
the side condition that every trial size fits below that initial best. -/
theorem c2_winner_first_minimum (codec : Codec) (img : List Nat)
    (width height : Nat)
    (hs : ∀ p ∈ greedyCandidates,
      trialSize codec img width height p < 0x7fffffff) :
    some (optimize_greedy_iterate codec img width height).1
      = firstMinBy (trialSize codec img width height) greedyCandidates
    ∧ (∀ p ∈ greedyCandidates,
        trialSize codec img width height
            (optimize_greedy_iterate codec img width height).1
          ≤ trialSize codec img width height p)
    ∧ iterStep codec img width height ((0x7fffffff : Int), sentinelReplay)
        ⟨9, 8, 0, 8⟩
      = ((trialSize codec img width height ⟨9, 8, 0, 8⟩ : Int), ⟨9, 8, 0, 8⟩) := by
  have hs8 := hs
  rw [greedyCandidates_eq] at hs8
  have h0 : trialSize codec img width height ⟨9, 8, 0, 8⟩ < 0x7fffffff :=
    hs8 _ (List.mem_cons_self _ _)
  have hrest : ∀ p ∈ ([⟨9, 8, 1, 8⟩, ⟨9, 8, 2, 8⟩, ⟨9, 8, 3, 8⟩,
      ⟨9, 8, 0, 0xF8⟩, ⟨9, 8, 1, 0xF8⟩, ⟨9, 8, 2, 0xF8⟩, ⟨9, 8, 3, 0xF8⟩] :
        List greedy_replay_param),
      trialSize codec img width height p < 0x7fffffff :=
    fun p hp => hs8 p (List.mem_cons_of_mem _ hp)
  have e1 : (optimize_greedy_iterate codec img width height).1
      = greedyBest codec img width height := by
    simp only [optimize_greedy_iterate]
  have hfold : (optimize_greedy_iterate codec img width height).1
      = minFold (trialSize codec img width height) ⟨9, 8, 0, 8⟩
          [⟨9, 8, 1, 8⟩, ⟨9, 8, 2, 8⟩, ⟨9, 8, 3, 8⟩,
           ⟨9, 8, 0, 0xF8⟩, ⟨9, 8, 1, 0xF8⟩, ⟨9, 8, 2, 0xF8⟩, ⟨9, 8, 3, 0xF8⟩] := by
    rw [e1]
    unfold greedyBest
    rw [greedyCandidates_eq]
    exact bestOf_cons codec img width height ⟨9, 8, 0, 8⟩ _ h0 hrest
  have hfirst : firstMinBy (trialSize codec img width height) greedyCandidates
      = some (minFold (trialSize codec img width height) ⟨9, 8, 0, 8⟩
          [⟨9, 8, 1, 8⟩, ⟨9, 8, 2, 8⟩, ⟨9, 8, 3, 8⟩,
           ⟨9, 8, 0, 0xF8⟩, ⟨9, 8, 1, 0xF8⟩, ⟨9, 8, 2, 0xF8⟩, ⟨9, 8, 3, 0xF8⟩]) := by
    rw [greedyCandidates_eq]
    unfold firstMinBy
    rw [List.foldl_cons]
    exact foldl_firstMin_some _ _ ⟨9, 8, 0, 8⟩
  refine ⟨by rw [hfold, hfirst], ?_,
    iterStep_initial codec img width height ⟨9, 8, 0, 8⟩ h0⟩
  intro p hp
  rw [hfold]
  rw [greedyCandidates_eq] at hp
  rcases List.mem_cons.mp hp with h | h
  · rw [h]
    exact (minFold_le _ _ ⟨9, 8, 0, 8⟩).1
  · exact (minFold_le _ _ ⟨9, 8, 0, 8⟩).2 p h

/-- Witness for C2 at the concrete demo codec on a 1x1 raster. -/
theorem c2_winner_first_minimum_witness :
    some (optimize_greedy_iterate cdemo [] 1 1).1
      = firstMinBy (trialSize cdemo [] 1 1) greedyCandidates
    ∧ (∀ p ∈ greedyCandidates,
        trialSize cdemo [] 1 1 (optimize_greedy_iterate cdemo [] 1 1).1
          ≤ trialSize cdemo [] 1 1 p)
    ∧ iterStep cdemo [] 1 1 ((0x7fffffff : Int), sentinelReplay) ⟨9, 8, 0, 8⟩
      = ((trialSize cdemo [] 1 1 ⟨9, 8, 0, 8⟩ : Int), ⟨9, 8, 0, 8⟩) :=
  c2_winner_first_minimum cdemo [] 1 1 (by decide)

/-- C4: save with method DEFAULT performs a single default-settings
encode (the sizing call and the write call of the default path) and
returns the encoded bytes paired with None. -/
theorem c4_default_single_encode (codec : Codec) (dc : DefaultCodec)
    (env : MemStreamEnv) (img : List Nat) (width height : Nat)
    (settings : ComprSettings)
    (hsz : dc.sizeOk = true) (hwr : dc.writeOk = true) :
    save codec dc env img width height CompressionMethod.COMPR_DEFAULT settings
      = (Except.ok (dc.out, none),
         [CodecCall.defaultSize, CodecCall.defaultWrite]) := by
  simp [save, optimize_default, saveDefaultOutcome, hsz, hwr]

/-- Witness for C4 at the concrete demo oracles. -/
theorem c4_default_single_encode_witness :
    save cdemo dcdemo envdemo [] 1 1 CompressionMethod.COMPR_DEFAULT
        ComprSettings.pynone
      = (Except.ok ([137, 80, 78, 71], none),
         [CodecCall.defaultSize, CodecCall.defaultWrite]) :=
  c4_default_single_encode cdemo dcdemo envdemo [] 1 1 ComprSettings.pynone rfl rfl

/-- C5: the greedy search is deterministic: two runs of the full greedy
search (and of the candidate iteration) on the same raster with the same
codec produce identical results — immediate here because the embedded
code computes its output purely from the raster, the codec and the
stream environment, with no other state. -/
theorem c5_greedy_deterministic (codec : Codec) (dc : DefaultCodec)
    (env : MemStreamEnv) (img : List Nat) (width height : Nat) :
    save codec dc env img width height CompressionMethod.COMPR_GREEDY
        ComprSettings.pynone
      = save codec dc env img width height CompressionMethod.COMPR_GREEDY
        ComprSettings.pynone
    ∧ optimize_greedy_iterate codec img width height
      = optimize_greedy_iterate codec img width height :=
  ⟨rfl, rfl⟩

/-- Evaluation of the greedy branch of save on a truthy 4-tuple whose
first field is not the 0xFF sentinel: no search runs, one parameterized
encode with the tuple is performed, and the bytes are returned with the
tuple. -/
theorem save_replay_eval (codec : Codec) (dc : DefaultCodec)
    (env : MemStreamEnv) (img : List Nat) (width height : Nat)
    (p1 p2 p3 p4 : Nat)
    (h1 : p1 < 256) (h2 : p2 < 256) (h3 : p3 < 256) (h4 : p4 < 256)
    (hs1 : p1 ≠ 0xFF) (hio : ∀ n, env.freadCount n = n) :
    save codec dc env img width height CompressionMethod.COMPR_GREEDY
        (ComprSettings.tuple4 p1 p2 p3 p4)
      = (Except.ok (codec img width height ⟨p1, p2, p3, p4⟩,
           some (p1, p2, p3, p4)),
         [CodecCall.trial ⟨p1, p2, p3, p4⟩]) := by
  have hrepl : saveReplay (ComprSettings.tuple4 p1 p2 p3 p4)
      = (⟨p1, p2, p3, p4⟩ : greedy_replay_param) := by
    simp only [saveReplay]
    rw [Nat.mod_eq_of_lt h1, Nat.mod_eq_of_lt h2,
      Nat.mod_eq_of_lt h3, Nat.mod_eq_of_lt h4]
  have hros : replayOrSearch codec img width height ⟨p1, p2, p3, p4⟩
      = (⟨p1, p2, p3, p4⟩, []) := by
    unfold replayOrSearch
    rw [if_neg (show ¬ ((⟨p1, p2, p3, p4⟩ :
      greedy_replay_param).compr_lvl = 0xFF) from hs1)]
  have hog : optimize_greedy codec env img width height ⟨p1, p2, p3, p4⟩
      = (Except.ok (codec img width height ⟨p1, p2, p3, p4⟩, ⟨p1, p2, p3, p4⟩),
         [CodecCall.trial ⟨p1, p2, p3, p4⟩]) := by
    unfold optimize_greedy
    rw [hros]
    dsimp only
    rw [hio, if_pos rfl]
    rfl
  unfold save
  rw [if_pos rfl, hrepl, hog]
  rfl

/-- C3: replay mode: save with method GREEDY and a fully-specified
non-sentinel 4-tuple performs no search, runs exactly one parameterized
encode with the tuple (the trace is that single trial), and returns the
bytes the codec produces for that tuple — definitionally the same byte
stream a full greedy search's trial encode with the same tuple produces —
paired with the tuple itself. -/
theorem c3_replay_mode (codec : Codec) (dc : DefaultCodec)
    (env : MemStreamEnv) (img : List Nat) (width height : Nat)
    (p1 p2 p3 p4 : Nat)
    (h1 : p1 < 256) (h2 : p2 < 256) (h3 : p3 < 256) (h4 : p4 < 256)
    (hs1 : p1 ≠ 0xFF) (_hs2 : p2 ≠ 0xFF) (_hs3 : p3 ≠ 0xFF) (_hs4 : p4 ≠ 0xFF)
    (hio : ∀ n, env.freadCount n = n) :
    save codec dc env img width height CompressionMethod.COMPR_GREEDY
        (ComprSettings.tuple4 p1 p2 p3 p4)
      = (Except.ok (codec img width height ⟨p1, p2, p3, p4⟩,
           some (p1, p2, p3, p4)),
         [CodecCall.trial ⟨p1, p2, p3, p4⟩]) :=
  save_replay_eval codec dc env img width height p1 p2 p3 p4
    h1 h2 h3 h4 hs1 hio

/-- Witness for C3 replaying the tuple (9, 8, 2, 8) on the demo codec. -/
theorem c3_replay_mode_witness :
    save cdemo dcdemo envdemo [] 1 1 CompressionMethod.COMPR_GREEDY
        (ComprSettings.tuple4 9 8 2 8)
      = (Except.ok (cdemo [] 1 1 ⟨9, 8, 2, 8⟩, some (9, 8, 2, 8)),
         [CodecCall.trial ⟨9, 8, 2, 8⟩]) :=
  c3_replay_mode cdemo dcdemo envdemo [] 1 1 9 8 2 8 (by decide) (by decide)
    (by decide) (by decide) (by decide) (by decide) (by decide) (by decide)
    (fun n => rfl)

/-- C9: a falsy compr_settings (None or the empty tuple), or a 4-tuple
whose first element is the 0xFF sentinel, makes save run the full greedy
search; in the sentinel-tuple case the remaining caller fields are
ignored (the save result equals the no-settings one) and the search's
winning tuple is what gets encoded and reported. -/
theorem c9_sentinel_triggers_search (codec : Codec) (dc : DefaultCodec)
    (env : MemStreamEnv) (img : List Nat) (width height : Nat)
    (a b c d : Nat) (ha : a % 256 = 0xFF) (hio : ∀ n, env.freadCount n = n) :
    save codec dc env img width height CompressionMethod.COMPR_GREEDY
        (ComprSettings.tuple4 a b c d)
      = save codec dc env img width height CompressionMethod.COMPR_GREEDY
          ComprSettings.pynone
    ∧ save codec dc env img width height CompressionMethod.COMPR_GREEDY
        ComprSettings.emptyTuple
      = save codec dc env img width height CompressionMethod.COMPR_GREEDY
          ComprSettings.pynone
    ∧ (save codec dc env img width height CompressionMethod.COMPR_GREEDY
        ComprSettings.pynone).1
      = Except.ok (codec img width height (greedyBest codec img width height),
          some ((greedyBest codec img width height).compr_lvl,
            (greedyBest codec img width height).mem_lvl,
            (greedyBest codec img width height).strat,
            (greedyBest codec img width height).filters)) := by
  have hkey : ∀ r0 : greedy_replay_param, r0.compr_lvl = 0xFF →
      replayOrSearch codec img width height r0
        = replayOrSearch codec img width height sentinelReplay := by
    intro r0 h
    unfold replayOrSearch
    rw [h, if_pos rfl, if_pos (show sentinelReplay.compr_lvl = 0xFF from rfl)]
  have hspn : saveReplay ComprSettings.pynone = sentinelReplay := rfl
  refine ⟨?_, ?_, ?_⟩
  · unfold save
    rw [if_pos rfl]
    unfold optimize_greedy
    rw [hspn, hkey (saveReplay (ComprSettings.tuple4 a b c d))
      (show (saveReplay (ComprSettings.tuple4 a b c d)).compr_lvl = 0xFF from ha)]
    rw [if_pos rfl]
  · unfold save
    rw [if_pos rfl]
    unfold optimize_greedy
    rw [hspn, hkey (saveReplay ComprSettings.emptyTuple)
      (show (saveReplay ComprSettings.emptyTuple).compr_lvl = 0xFF from rfl)]
    rw [if_pos rfl]
  · have hres : replayOrSearch codec img width height
        (saveReplay ComprSettings.pynone)
        = optimize_greedy_iterate codec img width height := by
      unfold replayOrSearch
      rw [if_pos (show (saveReplay ComprSettings.pynone).compr_lvl = 0xFF
          from rfl)]
    have e1 : (optimize_greedy_iterate codec img width height).1
        = greedyBest codec img width height := by
      simp only [optimize_greedy_iterate]
    unfold save
    rw [if_pos rfl]
    dsimp only
    unfold optimize_greedy
    rw [hres]
    dsimp only
    rw [e1, hio, if_pos rfl]
    rfl

/-- Witness for C9 with a sentinel-first tuple (255, 1, 2, 3) on the demo
codec. -/
theorem c9_sentinel_triggers_search_witness :
    save cdemo dcdemo envdemo [] 1 1 CompressionMethod.COMPR_GREEDY
        (ComprSettings.tuple4 255 1 2 3)
      = save cdemo dcdemo envdemo [] 1 1 CompressionMethod.COMPR_GREEDY
          ComprSettings.pynone
    ∧ save cdemo dcdemo envdemo [] 1 1 CompressionMethod.COMPR_GREEDY
        ComprSettings.emptyTuple
      = save cdemo dcdemo envdemo [] 1 1 CompressionMethod.COMPR_GREEDY
          ComprSettings.pynone
    ∧ (save cdemo dcdemo envdemo [] 1 1 CompressionMethod.COMPR_GREEDY
        ComprSettings.pynone).1
      = Except.ok (cdemo [] 1 1 (greedyBest cdemo [] 1 1),
          some ((greedyBest cdemo [] 1 1).compr_lvl,
            (greedyBest cdemo [] 1 1).mem_lvl,
            (greedyBest cdemo [] 1 1).strat,
            (greedyBest cdemo [] 1 1).filters)) :=
  c9_sentinel_triggers_search cdemo dcdemo envdemo [] 1 1 255 1 2 3
    (by decide) (fun n => rfl)

/-- C8: whenever the codec reports an allocation or write failure (the
sizing call or the write call of the default path returns failure), or
the number of bytes copied out of the memstream differs from the
filesize the encoder reported, the encode raises MemoryError and no byte
sequence is returned. -/
theorem c8_encode_failure (codec : Codec) (dc : DefaultCodec)
    (env : MemStreamEnv) (img : List Nat) (width height : Nat)
    (replay0 : greedy_replay_param) :
    ((dc.sizeOk = false ∨ dc.writeOk = false) →
      (optimize_default dc).1 = Except.error PngError.memoryError)
    ∧ ((∀ n, env.freadCount n ≠ n) →
      (optimize_greedy codec env img width height replay0).1
        = Except.error PngError.memoryError) := by
  constructor
  · intro h
    unfold optimize_default
    by_cases hsz : dc.sizeOk = false
    · rw [if_pos hsz]
    · rw [if_neg hsz]
      have hwr : dc.writeOk = false := by
        rcases h with h | h
        · exact absurd h hsz
        · exact h
      rw [if_pos hwr]
  · intro h
    unfold optimize_greedy
    rw [if_neg (h _)]

/-- Witness for C8: a failing sizing call and an always-short fread both
yield MemoryError. -/
theorem c8_encode_failure_witness :
    (optimize_default { sizeOk := false, writeOk := true, out := [] }).1
      = Except.error PngError.memoryError
    ∧ (optimize_greedy cdemo envbad [] 1 1 ⟨9, 8, 0, 8⟩).1
      = Except.error PngError.memoryError :=
  ⟨(c8_encode_failure cdemo { sizeOk := false, writeOk := true, out := [] }
      envbad [] 1 1 ⟨9, 8, 0, 8⟩).1 (Or.inl rfl),
   (c8_encode_failure cdemo { sizeOk := false, writeOk := true, out := [] }
      envbad [] 1 1 ⟨9, 8, 0, 8⟩).2 (fun n => Nat.succ_ne_self n)⟩

/-- C6 counterexample: at the degenerate raster with width = 0, height =
0 and an empty buffer, save with method DEFAULT raises no error — it
returns the codec's output normally — and its trace contains the two
codec invocations of the default path, so no InvalidRaster-style
rejection before a codec call exists in the code. -/
theorem c6_counterexample :
    (save cdemo dcdemo envdemo [] 0 0 CompressionMethod.COMPR_DEFAULT
        ComprSettings.pynone).1
      = Except.ok ([137, 80, 78, 71], none)
    ∧ (save cdemo dcdemo envdemo [] 0 0 CompressionMethod.COMPR_DEFAULT
        ComprSettings.pynone).2
      = [CodecCall.defaultSize, CodecCall.defaultWrite] :=
  ⟨rfl, rfl⟩

/-- C6 amended: save performs no validation of raster dimensions or
buffer length: on an input with zero dimensions or a buffer whose length
differs from width*height*4, the DEFAULT path still performs both codec
calls and returns their result, and the GREEDY path still performs the
full search's trial encodes followed by the final encode. -/
theorem c6_no_raster_validation (codec : Codec) (dc : DefaultCodec)
    (env : MemStreamEnv) (img : List Nat) (width height : Nat)
    (_hdeg : width = 0 ∨ height = 0 ∨ img.length ≠ width * height * 4)
    (hsz : dc.sizeOk = true) (hwr : dc.writeOk = true) :
    save codec dc env img width height CompressionMethod.COMPR_DEFAULT
        ComprSettings.pynone
      = (Except.ok (dc.out, none),
         [CodecCall.defaultSize, CodecCall.defaultWrite])
    ∧ (save codec dc env img width height CompressionMethod.COMPR_GREEDY
        ComprSettings.pynone).2
      = (optimize_greedy_iterate codec img width height).2
          ++ [CodecCall.trial (optimize_greedy_iterate codec img width height).1] := by
  constructor
  · simp [save, optimize_default, saveDefaultOutcome, hsz, hwr]
  · rfl

/-- Witness for the amended C6 at a 0-width raster. -/
theorem c6_no_raster_validation_witness :
    save cdemo dcdemo envdemo [] 0 5 CompressionMethod.COMPR_DEFAULT
        ComprSettings.pynone
      = (Except.ok ([137, 80, 78, 71], none),
         [CodecCall.defaultSize, CodecCall.defaultWrite])
    ∧ (save cdemo dcdemo envdemo [] 0 5 CompressionMethod.COMPR_GREEDY
        ComprSettings.pynone).2
      = (optimize_greedy_iterate cdemo [] 0 5).2
          ++ [CodecCall.trial (optimize_greedy_iterate cdemo [] 0 5).1] :=
  c6_no_raster_validation cdemo dcdemo envdemo [] 0 5 (Or.inl rfl) rfl rfl

/-- C7 counterexample: the tuple (200, 8, 0, 8) has its compression level
200 outside the codec-valid range [1, 9], yet save with method GREEDY
accepts it, uses it for the encode (the trace is exactly that trial) and
returns normally — no UnsupportedParams-style rejection before use exists
in the code. -/
theorem c7_counterexample :
    (save cdemo dcdemo envdemo [] 1 1 CompressionMethod.COMPR_GREEDY
        (ComprSettings.tuple4 200 8 0 8)).1
      = Except.ok ([7], some (200, 8, 0, 8))
    ∧ (save cdemo dcdemo envdemo [] 1 1 CompressionMethod.COMPR_GREEDY
        (ComprSettings.tuple4 200 8 0 8)).2
      = [CodecCall.trial ⟨200, 8, 0, 8⟩] :=
  ⟨rfl, rfl⟩

/-- C7 amended: save performs no validation of caller-supplied
compression parameters: a non-sentinel 4-tuple lying outside the
codec-valid ranges (validParams) is neither rejected nor corrected — it
is passed to the codec and used for the single replay encode exactly as a
valid tuple would be. -/
theorem c7_no_params_validation (codec : Codec) (dc : DefaultCodec)
    (env : MemStreamEnv) (img : List Nat) (width height : Nat)
    (p1 p2 p3 p4 : Nat)
    (h1 : p1 < 256) (h2 : p2 < 256) (h3 : p3 < 256) (h4 : p4 < 256)
    (hs1 : p1 ≠ 0xFF) (_hbad : ¬ validParams p1 p2 p3 p4)
    (hio : ∀ n, env.freadCount n = n) :
    save codec dc env img width height CompressionMethod.COMPR_GREEDY
        (ComprSettings.tuple4 p1 p2 p3 p4)
      = (Except.ok (codec img width height ⟨p1, p2, p3, p4⟩,
           some (p1, p2, p3, p4)),
         [CodecCall.trial ⟨p1, p2, p3, p4⟩]) :=
  save_replay_eval codec dc env img width height p1 p2 p3 p4
    h1 h2 h3 h4 hs1 hio

/-- Witness for the amended C7 at the out-of-range tuple (200, 8, 0, 8). -/
theorem c7_no_params_validation_witness :
    save cdemo dcdemo envdemo [] 1 1 CompressionMethod.COMPR_GREEDY
        (ComprSettings.tuple4 200 8 0 8)
      = (Except.ok (cdemo [] 1 1 ⟨200, 8, 0, 8⟩, some (200, 8, 0, 8)),
         [CodecCall.trial ⟨200, 8, 0, 8⟩]) :=
  c7_no_params_validation cdemo dcdemo envdemo [] 1 1 200 8 0 8
    (by decide) (by decide) (by decide) (by decide) (by decide)
    (by decide) (fun n => rfl)

/-- C10: any compression method other than COMPR_GREEDY (in particular
COMPR_NONE and COMPR_AGGRESSIVE) takes the same branch of save as
COMPR_DEFAULT and returns the identical (bytes, None) result. -/
theorem c10_non_greedy_equals_default (codec : Codec) (dc : DefaultCodec)
    (env : MemStreamEnv) (img : List Nat) (width height : Nat)
    (settings : ComprSettings) (m : CompressionMethod)
    (hm : m ≠ CompressionMethod.COMPR_GREEDY) :
    save codec dc env img width height m settings
      = save codec dc env img width height CompressionMethod.COMPR_DEFAULT
        settings := by
  simp [save, hm]

/-- Witness for C10 with COMPR_NONE at the concrete demo oracles. -/
theorem c10_non_greedy_equals_default_witness :
    save cdemo dcdemo envdemo [] 1 1 CompressionMethod.COMPR_NONE
        ComprSettings.pynone
      = save cdemo dcdemo envdemo [] 1 1 CompressionMethod.COMPR_DEFAULT
        ComprSettings.pynone :=
  c10_non_greedy_equals_default cdemo dcdemo envdemo [] 1 1
    ComprSettings.pynone CompressionMethod.COMPR_NONE (by decide)

end PngCreate

